import Mathlib

/-!
Shallow embedding of the core of the ICT283 Assignment-2 weather-data system
(`Date`, `WeatherRecord`, the template `Bst`, the `WeatherDataCollection`
storage/query layer, the CSV timestamp parser and the `Statistics` module),
together with theorems settling the specification claims about it.

Modelling conventions:
* C++ `int` fields are modelled as `Int` (no arithmetic close to overflow
  occurs in the modelled code paths).
* C++ `double` measurement fields carried by records are modelled as `ℚ`
  (the claims only copy and compare them); the numeric sequences consumed by
  the `Statistics` module are modelled as `ℝ`, with `Real.sqrt` for
  `std::sqrt`.
* Heap pointers are modelled by values: `Node<T>*` subtrees become an
  inductive tree, `nullptr` the `leaf` constructor; "deep copy" of a record
  is the identity on values.
-/

namespace ICT283

/-- The `Date` class of `src/Date.h`: five `int` components. -/
structure Date where
  day : Int
  month : Int
  year : Int
  hour : Int
  minute : Int
deriving DecidableEq, Repr

/-- `Date::Date()` (src/Date.cpp line 16): the default constructor
initialises the date to 1/1/2000 at 00:00. -/
def Date.defaultCtor : Date := ⟨1, 1, 2000, 0, 0⟩

/-- `Date::operator<` (src/Date.cpp lines 96-110): compares year, then
month, then day, then hour, then minute. -/
def Date.ltB (a b : Date) : Bool :=
  if a.year ≠ b.year then a.year < b.year
  else if a.month ≠ b.month then a.month < b.month
  else if a.day ≠ b.day then a.day < b.day
  else if a.hour ≠ b.hour then a.hour < b.hour
  else a.minute < b.minute

/-- `Date::operator>` (src/Date.cpp lines 118-120): defined as
`other->operator<(this)`. -/
def Date.gtB (a b : Date) : Bool := Date.ltB b a

/-- `Date::operator==` (src/Date.cpp lines 128-132): all five components
equal (compared in the order day, month, year, hour, minute). -/
def Date.eqB (a b : Date) : Bool :=
  a.day = b.day ∧ a.month = b.month ∧ a.year = b.year ∧
    a.hour = b.hour ∧ a.minute = b.minute

/-- Lexicographic strict order on the tuple
(year, month, day, hour, minute), stated from the specification's words. -/
def Date.lexLt (a b : Date) : Prop :=
  a.year < b.year ∨ (a.year = b.year ∧
    (a.month < b.month ∨ (a.month = b.month ∧
      (a.day < b.day ∨ (a.day = b.day ∧
        (a.hour < b.hour ∨ (a.hour = b.hour ∧ a.minute < b.minute)))))))

instance : DecidableRel Date.lexLt := by
  intro a b
  unfold Date.lexLt
  infer_instance

/-- The `WeatherRecord` class of `src/WeatherRecord.h`: an owned `Date`
plus three `double` measurements. -/
structure WeatherRecord where
  date : Date
  windSpeed : ℚ
  temperature : ℚ
  solarRadiation : ℚ
deriving DecidableEq, Repr

/-- `WeatherRecord::operator<` (src/WeatherRecord.cpp lines 76-79):
delegates to `Date::operator<` on the owned dates. -/
def WeatherRecord.ltB (a b : WeatherRecord) : Bool := a.date.ltB b.date

/-- `WeatherRecord::operator>` (src/WeatherRecord.cpp lines 89-91):
delegates to `Date::operator>`. -/
def WeatherRecord.gtB (a b : WeatherRecord) : Bool := a.date.gtB b.date

/-- `WeatherRecord::operator==` (src/WeatherRecord.cpp lines 101-103):
delegates to `Date::operator==`. -/
def WeatherRecord.eqB (a b : WeatherRecord) : Bool := a.date.eqB b.date

/-- The comparison interface the `Bst<T>` template requires of its payload
type: `operator<`, `operator>` and `operator==`. -/
class CppOrd (α : Type) where
  ltB : α → α → Bool
  gtB : α → α → Bool
  eqB : α → α → Bool

instance dateCppOrd : CppOrd Date := ⟨Date.ltB, Date.gtB, Date.eqB⟩

instance recCppOrd : CppOrd WeatherRecord :=
  ⟨WeatherRecord.ltB, WeatherRecord.gtB, WeatherRecord.eqB⟩

/-! ### The `Bst<T>` template of `src/Bst.h`

A `Node<T>*` is either `nullptr` (`leaf`) or a node owning a payload and
two child pointers; the `Bst<T>` object is just its root pointer. -/

/-- The node structure of `src/Bst.h` (class `Node<T>` plus the root
pointer of class `Bst<T>`): `leaf` models `nullptr`. -/
inductive Bst (α : Type) where
  | leaf : Bst α
  | node : Bst α → α → Bst α → Bst α
deriving DecidableEq, Repr

namespace Bst

/-- `Bst<T>::insertRec` (src/Bst.h lines 303-315): on a null child a new
node is created; otherwise descend left on `operator<`, right on
`operator>`, and return the node unchanged when neither holds
(duplicate key: the incoming value is dropped). -/
def insertRec [CppOrd α] : Bst α → α → Bst α
  | .leaf, value => .node .leaf value .leaf
  | .node l d r, value =>
    if CppOrd.ltB value d then .node (insertRec l value) d r
    else if CppOrd.gtB value d then .node l d (insertRec r value)
    else .node l d r

/-- `Bst<T>::insert` (src/Bst.h lines 321-324): replaces the root by
`insertRec(root, value)`. -/
def insert [CppOrd α] (t : Bst α) (value : α) : Bst α := insertRec t value

/-- `Bst<T>::sizeRec` (src/Bst.h lines 528-532) together with
`Bst<T>::size` (lines 538-541): recursive node count. -/
def sizeRec : Bst α → Int
  | .leaf => 0
  | .node l _ r => 1 + sizeRec l + sizeRec r

/-- `Bst<T>::size` (src/Bst.h lines 538-541). -/
def size (t : Bst α) : Int := sizeRec t

/-- The sequence of payloads visited by `Bst<T>::inOrderRec`
(src/Bst.h lines 361-368): left subtree, node data, right subtree. -/
def inOrderList : Bst α → List α
  | .leaf => []
  | .node l d r => inOrderList l ++ d :: inOrderList r

/-- `Bst<T>::inOrderRec` with a context pointer (src/Bst.h lines 432-439):
traverses the left subtree, applies `visit` to the node's data and the
context, then traverses the right subtree; the context accumulates any
collected data. -/
def inOrderCtx (visit : α → σ → σ) : Bst α → σ → σ
  | .leaf, ctx => ctx
  | .node l d r, ctx => inOrderCtx visit r (visit d (inOrderCtx visit l ctx))

/-- `Bst<T>::checkInvariantRec` (src/Bst.h lines 489-499): a node fails
unless its data is strictly greater than `min` and strictly less than
`max`; children are checked with the node's data as the new bound. -/
def checkInvariantRec [CppOrd α] : Bst α → α → α → Bool
  | .leaf, _, _ => true
  | .node l d r, mn, mx =>
    if !(CppOrd.gtB d mn) || !(CppOrd.ltB d mx) then false
    else checkInvariantRec l mn d && checkInvariantRec r d mx

/-- `Bst<T>::checkInvariant` (src/Bst.h lines 505-512): calls
`checkInvariantRec(root, &defaultMin, &defaultMax)` where `defaultMin`
and `defaultMax` are BOTH default-constructed values of `T`.  The only
payload type in this repository with a default constructor is `Date`
(`WeatherRecord` has none, so `Bst<WeatherRecord>::checkInvariant`
would not even instantiate); this is the `Date` instantiation. -/
def checkInvariantDate (t : Bst Date) : Bool :=
  checkInvariantRec t Date.defaultCtor Date.defaultCtor

/-- All payloads in the tree satisfy `p` (verification predicate, not a
source function). -/
def All (p : α → Prop) : Bst α → Prop
  | .leaf => True
  | .node l d r => p d ∧ All p l ∧ All p r

end Bst

/-- Strict key order on records: the Prop form of
`WeatherRecord::operator<`. -/
def recLt (a b : WeatherRecord) : Prop := a.date.ltB b.date = true

instance : DecidableRel recLt := by
  intro a b
  unfold recLt
  infer_instance

/-- The genuine binary-search-tree ordering invariant for record trees:
every node's left subtree is strictly below it and its right subtree
strictly above it, in timestamp order (verification predicate). -/
def Bst.OrderedRec : Bst WeatherRecord → Prop
  | .leaf => True
  | .node l d r =>
    Bst.All (fun x => recLt x d) l ∧ Bst.All (fun x => recLt d x) r ∧
      Bst.OrderedRec l ∧ Bst.OrderedRec r

/-- Building a store by the repository's insertion loop
(src/WeatherDataCollection.cpp lines 219-222 run `insert` once per
buffered record, in list order). -/
def Bst.insertList [CppOrd α] (t : Bst α) (l : List α) : Bst α :=
  l.foldl Bst.insert t

/-- Distinct-timestamp side condition used by the order-independence
claims. -/
def distinctDates (a b : WeatherRecord) : Prop := a.date ≠ b.date

instance : DecidableRel distinctDates := fun a b => by
  unfold distinctDates
  infer_instance

/-! ### The collection layer: `src/WeatherDataCollection.cpp` -/

/-- `CollectionContext` (src/WeatherRecord.h lines 110-125): results
vector plus the target month and year. -/
structure CollectionContext where
  records : List WeatherRecord
  targetMonth : Int
  targetYear : Int
deriving DecidableEq, Repr

/-- `collectByMonth` (src/WeatherRecord.cpp lines 129-134): if the
record's month equals the context's target month, push a deep copy of
the record onto the context's results vector (a deep copy is the value
itself in this embedding). -/
def collectByMonth (record : WeatherRecord) (ctx : CollectionContext) :
    CollectionContext :=
  if record.date.month = ctx.targetMonth then
    { ctx with records := ctx.records ++ [record] }
  else ctx

/-- `collectByYearMonth` (src/WeatherRecord.cpp lines 146-151): if the
record's year and month both match the context, push a deep copy. -/
def collectByYearMonth (record : WeatherRecord) (ctx : CollectionContext) :
    CollectionContext :=
  if record.date.year = ctx.targetYear ∧ record.date.month = ctx.targetMonth then
    { ctx with records := ctx.records ++ [record] }
  else ctx

/-- `WeatherDataCollection` (src/WeatherDataCollection.h): a BST of
records plus a `Map<int, std::vector<WeatherRecord*>>` keyed by month.
The map is modelled as a total function from month to the list of record
values its bucket's pointers designate; a month that was never inserted
maps to the empty list (`std::map` default). -/
structure WeatherDataCollection where
  weatherDataBST : Bst WeatherRecord
  dataByMonth : Int → List WeatherRecord

/-- The default constructor (src/WeatherDataCollection.cpp lines 24-26):
empty BST, empty map. -/
def WeatherDataCollection.emptyColl : WeatherDataCollection :=
  ⟨Bst.leaf, fun _ => []⟩

/-- `WeatherDataCollection::addWeatherRecord`
(src/WeatherDataCollection.cpp lines 93-109): unconditionally calls
`weatherDataBST->insert(record)`, then — with no check of whether that
insert was accepted — creates the month bucket if absent and appends
the record pointer to it.  For the `Map` model the
`contains`/`insert(empty)`/`at(...)->push_back` sequence amounts to
appending to the bucket of `record->date->GetMonth()`. -/
def WeatherDataCollection.addWeatherRecord (c : WeatherDataCollection)
    (record : WeatherRecord) : WeatherDataCollection :=
  { weatherDataBST := c.weatherDataBST.insert record
    dataByMonth := fun m =>
      if m = record.date.month then c.dataByMonth m ++ [record]
      else c.dataByMonth m }

/-- `WeatherDataCollection::getDataForYearMonth`
(src/WeatherDataCollection.cpp lines 278-284): no parameter validation;
allocates a fresh result vector and runs the in-order traversal with
`collectByYearMonth` over a context `{result, month, year}`. -/
def WeatherDataCollection.getDataForYearMonth (c : WeatherDataCollection)
    (year month : Int) : List WeatherRecord :=
  (c.weatherDataBST.inOrderCtx collectByYearMonth ⟨[], month, year⟩).records

/-- `WeatherDataCollection::getDataForMonth`
(src/WeatherDataCollection.cpp lines 295-308): returns `nullptr`
(modelled `none`) when the month is outside 1..12, otherwise the records
collected by `collectByMonth` (target year 0 is ignored by that
collector).  The C++ null-pointer check on the `month` argument has no
counterpart for a value-typed `Int`. -/
def WeatherDataCollection.getDataForMonth (c : WeatherDataCollection)
    (month : Int) : Option (List WeatherRecord) :=
  if month < 1 ∨ month > 12 then none
  else some ((c.weatherDataBST.inOrderCtx collectByMonth ⟨[], month, 0⟩).records)

/-- `WeatherDataCollection::getDataForSpecificMonthYear`
(src/WeatherDataCollection.cpp lines 320-333): returns `nullptr`
(modelled `none`) when month is outside 1..12 or year < 1, otherwise
the records collected by `collectByYearMonth`. -/
def WeatherDataCollection.getDataForSpecificMonthYear
    (c : WeatherDataCollection) (year month : Int) :
    Option (List WeatherRecord) :=
  if month < 1 ∨ month > 12 ∨ year < 1 then none
  else some ((c.weatherDataBST.inOrderCtx collectByYearMonth ⟨[], month, year⟩).records)

/-- `WeatherDataCollection::getTotalRecords`
(src/WeatherDataCollection.cpp lines 543-545). -/
def WeatherDataCollection.getTotalRecords (c : WeatherDataCollection) : Int :=
  c.weatherDataBST.size

/-! ### The timestamp parser: `WeatherDataCollection::parseDate`
(src/WeatherDataCollection.cpp lines 236-266)

The `std::stringstream` extractions `>> int` and `>> char` are modelled
character-exactly: formatted extraction first skips whitespace; `>> int`
then consumes an optional sign and a nonempty run of decimal digits
(failing when there is none), and `>> char` consumes one character
(failing at end of input). -/

/-- Whitespace skipped by formatted stream extraction (`std::isspace` in
the default locale): space, tab, newline, carriage return, vertical tab,
form feed. -/
def isStreamWs (c : Char) : Bool :=
  c = ' ' || c = '\t' || c = '\n' || c = '\r' ||
    c = Char.ofNat 11 || c = Char.ofNat 12

/-- Skip leading stream whitespace. -/
def skipWs : List Char → List Char
  | [] => []
  | c :: cs => if isStreamWs c then skipWs cs else c :: cs

/-- The leading run of decimal digits. -/
def takeDigits : List Char → List Char
  | [] => []
  | c :: cs => if c.isDigit then c :: takeDigits cs else []

/-- What remains after the leading run of decimal digits. -/
def dropDigits : List Char → List Char
  | [] => []
  | c :: cs => if c.isDigit then dropDigits cs else c :: cs

/-- Value of a run of decimal digits. -/
def digitsToNat (ds : List Char) : Nat :=
  ds.foldl (fun n c => 10 * n + (c.toNat - 48)) 0

/-- Digit-and-sign reading step of `istream >> int`, applied after
whitespace skipping: consume an optional sign and a nonempty digit run;
fail (failbit) when no digit follows. -/
def readIntCore : List Char → Option (Int × List Char)
  | [] => none
  | c :: rest =>
    if c = '-' then
      let ds := takeDigits rest
      if ds.isEmpty then none
      else some (-(digitsToNat ds : Int), dropDigits rest)
    else if c = '+' then
      let ds := takeDigits rest
      if ds.isEmpty then none
      else some ((digitsToNat ds : Int), dropDigits rest)
    else
      let ds := takeDigits (c :: rest)
      if ds.isEmpty then none
      else some ((digitsToNat ds : Int), dropDigits (c :: rest))

/-- Formatted `istream >> int`: skip whitespace, then read the number. -/
def readInt (cs : List Char) : Option (Int × List Char) :=
  readIntCore (skipWs cs)

/-- Character reading step of `istream >> char`, applied after
whitespace skipping: consume one character; fail at end of input. -/
def readCharCore : List Char → Option (Char × List Char)
  | [] => none
  | c :: rest => some (c, rest)

/-- Formatted `istream >> char`: skip whitespace, then read one
character. -/
def readChar (cs : List Char) : Option (Char × List Char) :=
  readCharCore (skipWs cs)

/-- `s.find(' ')` followed by the two `substr` calls
(src/WeatherDataCollection.cpp lines 238-246): `none` when the string
has no space, otherwise the parts before and after the first space. -/
def splitAtSpace : List Char → Option (List Char × List Char)
  | [] => none
  | c :: cs =>
    if c = ' ' then some ([], cs)
    else
      match splitAtSpace cs with
      | none => none
      | some (a, b) => some (c :: a, b)

/-- The date-portion parse
`date_ss >> day >> sep1 >> month >> sep2 >> year` with the separator
checks `sep1 == '/' && sep2 == '/'`
(src/WeatherDataCollection.cpp lines 252-255). -/
def parseDatePart (cs0 : List Char) : Option (Int × Int × Int) := do
  let (day, cs1) ← readInt cs0
  let (sep1, cs2) ← readChar cs1
  let (month, cs3) ← readInt cs2
  let (sep2, cs4) ← readChar cs3
  let (year, _) ← readInt cs4
  if sep1 = '/' ∧ sep2 = '/' then some (day, month, year) else none

/-- The time-portion parse `time_ss >> hour >> sep3 >> minute` with the
separator check `sep3 == ':'`
(src/WeatherDataCollection.cpp lines 258-262). -/
def parseTimePart (cs0 : List Char) : Option (Int × Int) := do
  let (hour, cs1) ← readInt cs0
  let (sep3, cs2) ← readChar cs1
  let (minute, _) ← readInt cs2
  if sep3 = ':' then some (hour, minute) else none

/-- `WeatherDataCollection::parseDate`
(src/WeatherDataCollection.cpp lines 236-266): no space → sentinel
1/1/1900 00:00; date portion fails or separators wrong → sentinel;
time portion fails → parsed date with hour and minute zeroed;
otherwise all five parsed components. -/
def parseDate (s : String) : Date :=
  match splitAtSpace s.data with
  | none => ⟨1, 1, 1900, 0, 0⟩
  | some (date_part, time_part) =>
    match parseDatePart date_part with
    | none => ⟨1, 1, 1900, 0, 0⟩
    | some (day, month, year) =>
      match parseTimePart time_part with
      | none => ⟨day, month, year, 0, 0⟩
      | some (hour, minute) => ⟨day, month, year, hour, minute⟩

/-! ### The `Statistics` module (src/Statistics.cpp)

`double` sequences are modelled as `List ℝ` and `std::sqrt` as
`Real.sqrt`; the guard constant `1e-10` is the real number 10⁻¹⁰. -/

namespace Statistics

/-- The five running sums accumulated by the loop of
`Statistics::calculateSPCC` (src/Statistics.cpp lines 73-82). -/
structure SpccSums where
  sum_x : ℝ
  sum_y : ℝ
  sum_xy : ℝ
  sum_x2 : ℝ
  sum_y2 : ℝ

/-- One iteration of the loop body (src/Statistics.cpp lines 76-82). -/
def spccStep (s : SpccSums) (p : ℝ × ℝ) : SpccSums :=
  ⟨s.sum_x + p.1, s.sum_y + p.2, s.sum_xy + p.1 * p.2,
    s.sum_x2 + p.1 * p.1, s.sum_y2 + p.2 * p.2⟩

/-- The whole loop `for (int i = 0; i < n; ++i)` over the paired
entries of the two (equal-length) vectors. -/
def spccLoop (ps : List (ℝ × ℝ)) : SpccSums :=
  ps.foldl spccStep ⟨0, 0, 0, 0, 0⟩

/-- `Statistics::calculateSPCC` (src/Statistics.cpp lines 69-89):
return 0.0 when the lengths differ or there are fewer than two samples;
accumulate the five sums; return 0.0 when the magnitude of
`sqrt((n*sum_x2 - sum_x²)(n*sum_y2 - sum_y²))` is below 1e-10;
otherwise return numerator/denominator. -/
noncomputable def calculateSPCC (x y : List ℝ) : ℝ :=
  if x.length ≠ y.length ∨ x.length < 2 then 0
  else
    let n : ℝ := x.length
    let s := spccLoop (x.zip y)
    let numerator := n * s.sum_xy - s.sum_x * s.sum_y
    let denominator := Real.sqrt ((n * s.sum_x2 - s.sum_x * s.sum_x) *
      (n * s.sum_y2 - s.sum_y * s.sum_y))
    if |denominator| < 1e-10 then 0 else numerator / denominator

/-- The numerator of the classic sum-based Pearson formula, stated from
the specification's words with plain list sums. -/
noncomputable def pearsonNum (x y : List ℝ) : ℝ :=
  (x.length : ℝ) * ((x.zip y).map (fun p => p.1 * p.2)).sum -
    x.sum * y.sum

/-- The denominator of the classic sum-based Pearson formula, stated
from the specification's words with plain list sums. -/
noncomputable def pearsonDen (x y : List ℝ) : ℝ :=
  Real.sqrt (((x.length : ℝ) * (x.map (fun v => v * v)).sum -
      x.sum * x.sum) *
    ((x.length : ℝ) * (y.map (fun v => v * v)).sum - y.sum * y.sum))

end Statistics

/-! ### Concrete sample data used by witnesses and counterexamples -/

def sampleDateA : Date := ⟨5, 3, 2021, 10, 30⟩

def sampleDateB : Date := ⟨1, 1, 2019, 0, 0⟩

def recJun2020 : WeatherRecord := ⟨⟨10, 6, 2020, 9, 0⟩, 3, 21, 100⟩

def recJun2020b : WeatherRecord := ⟨⟨10, 6, 2020, 9, 0⟩, 5, 18, 250⟩

def recJan2019 : WeatherRecord := ⟨⟨2, 1, 2019, 12, 0⟩, 7, 15, 80⟩

def recJun2019 : WeatherRecord := ⟨⟨15, 6, 2019, 14, 30⟩, 4, 25, 300⟩

def sampleTree : Bst WeatherRecord := (Bst.leaf).insert recJun2020

def sampleColl : WeatherDataCollection :=
  ((WeatherDataCollection.emptyColl.addWeatherRecord
    recJun2020).addWeatherRecord recJan2019).addWeatherRecord recJun2019

def dupRecA : WeatherRecord := ⟨⟨1, 1, 2020, 0, 0⟩, 1, 2, 3⟩

def dupRecB : WeatherRecord := ⟨⟨1, 1, 2020, 0, 0⟩, 4, 5, 6⟩

def dupColl : WeatherDataCollection :=
  (WeatherDataCollection.emptyColl.addWeatherRecord
    dupRecA).addWeatherRecord dupRecB

/-! ### Basic facts about the Date comparison operators -/

theorem Date.ltB_iff_lexLt (a b : Date) : a.ltB b = true ↔ a.lexLt b := by
  unfold Date.ltB Date.lexLt
  split_ifs <;> simp only [decide_eq_true_eq] <;> omega

theorem Date.eqB_iff (a b : Date) : a.eqB b = true ↔ a = b := by
  unfold Date.eqB
  constructor
  · intro h
    simp only [decide_eq_true_eq] at h
    obtain ⟨h1, h2, h3, h4, h5⟩ := h
    cases a; cases b; simp_all
  · intro h; subst h; simp

theorem Date.ltB_irrefl (a : Date) : a.ltB a = false := by
  unfold Date.ltB; simp

theorem Date.ltB_asymm (a b : Date) (h : a.ltB b = true) : b.ltB a = false := by
  rw [Date.ltB_iff_lexLt] at h
  by_contra hc
  rw [Bool.not_eq_false, Date.ltB_iff_lexLt] at hc
  unfold Date.lexLt at h hc
  omega

theorem Date.ltB_trans (a b c : Date) (hab : a.ltB b = true)
    (hbc : b.ltB c = true) : a.ltB c = true := by
  rw [Date.ltB_iff_lexLt] at hab hbc ⊢
  unfold Date.lexLt at hab hbc ⊢
  omega

theorem Date.eq_of_not_ltB_not_gtB (a b : Date) (h1 : a.ltB b = false)
    (h2 : a.gtB b = false) : a = b := by
  unfold Date.gtB at h2
  have hab : ¬ a.lexLt b := by rw [← Date.ltB_iff_lexLt, h1]; simp
  have hba : ¬ b.lexLt a := by rw [← Date.ltB_iff_lexLt, h2]; simp
  cases a; cases b
  simp only [Date.lexLt, not_or, not_and, not_lt] at hab hba
  simp only [Date.mk.injEq]
  omega

theorem Bst.all_iff_forall_inOrder (p : α → Prop) (t : Bst α) :
    Bst.All p t ↔ ∀ x ∈ t.inOrderList, p x := by
  induction t with
  | leaf => simp [Bst.All, Bst.inOrderList]
  | node l d r ihl ihr =>
    simp only [Bst.All, Bst.inOrderList, List.mem_append, List.mem_cons]
    rw [ihl, ihr]
    constructor
    · rintro ⟨hd, hl, hr⟩ x (hx | rfl | hx)
      · exact hl x hx
      · exact hd
      · exact hr x hx
    · intro h
      exact ⟨h d (Or.inr (Or.inl rfl)),
        fun x hx => h x (Or.inl hx),
        fun x hx => h x (Or.inr (Or.inr hx))⟩

theorem Bst.all_insertRec [CppOrd α] (p : α → Prop) (t : Bst α) (v : α)
    (ht : Bst.All p t) (hv : p v) : Bst.All p (t.insertRec v) := by
  induction t with
  | leaf => exact ⟨hv, trivial, trivial⟩
  | node l d r ihl ihr =>
    obtain ⟨hd, hl, hr⟩ := ht
    unfold Bst.insertRec
    split_ifs with h1 h2
    · exact ⟨hd, ihl hl, hr⟩
    · exact ⟨hd, hl, ihr hr⟩
    · exact ⟨hd, hl, hr⟩

theorem Bst.orderedRec_insertRec (t : Bst WeatherRecord) (v : WeatherRecord)
    (ht : t.OrderedRec) : (t.insertRec v).OrderedRec := by
  induction t with
  | leaf => exact ⟨trivial, trivial, trivial, trivial⟩
  | node l d r ihl ihr =>
    obtain ⟨hld, hrd, hl, hr⟩ := ht
    unfold Bst.insertRec
    split_ifs with h1 h2
    · exact ⟨Bst.all_insertRec _ l v hld h1, hrd, ihl hl, hr⟩
    · have hdv : recLt d v := h2
      exact ⟨hld, Bst.all_insertRec _ r v hrd hdv, hl, ihr hr⟩
    · exact ⟨hld, hrd, hl, hr⟩

theorem recLt_trans {a b c : WeatherRecord} (hab : recLt a b)
    (hbc : recLt b c) : recLt a c :=
  Date.ltB_trans a.date b.date c.date hab hbc

theorem recLt_asymm {a b : WeatherRecord} (hab : recLt a b) : ¬ recLt b a := by
  intro hba
  have h := Date.ltB_asymm a.date b.date hab
  rw [hba] at h
  exact Bool.noConfusion h

/-- In-order traversal of a tree satisfying the search invariant yields a
strictly ascending sequence of timestamps. -/
theorem Bst.inOrder_pairwise_of_orderedRec (t : Bst WeatherRecord)
    (ht : t.OrderedRec) : t.inOrderList.Pairwise recLt := by
  induction t with
  | leaf => exact List.Pairwise.nil
  | node l d r ihl ihr =>
    obtain ⟨hld, hrd, hl, hr⟩ := ht
    rw [Bst.all_iff_forall_inOrder] at hld hrd
    simp only [Bst.inOrderList]
    rw [List.pairwise_append]
    refine ⟨ihl hl, ?_, ?_⟩
    · rw [List.pairwise_cons]
      exact ⟨hrd, ihr hr⟩
    · intro x hx y hy
      rcases List.mem_cons.mp hy with rfl | hy
      · exact hld x hx
      · exact recLt_trans (hld x hx) (hrd y hy)

/-- Inserting a value whose key equals the key of a record already in a
well-formed tree leaves the tree structurally unchanged. -/
theorem Bst.insertRec_eq_of_dup (t : Bst WeatherRecord)
    (v w : WeatherRecord) (ht : t.OrderedRec) (hw : w ∈ t.inOrderList)
    (hkey : v.date = w.date) : t.insertRec v = t := by
  induction t with
  | leaf => simp [Bst.inOrderList] at hw
  | node l d r ihl ihr =>
    obtain ⟨hld, hrd, hl, hr⟩ := ht
    rw [Bst.all_iff_forall_inOrder] at hld hrd
    simp only [Bst.inOrderList, List.mem_append, List.mem_cons] at hw
    unfold Bst.insertRec
    split_ifs with h1 h2
    · -- descending left: the duplicate must live in the left subtree
      have hvd : v.date.ltB d.date = true := h1
      rcases hw with hw | rfl | hw
      · rw [ihl hl hw]
      · rw [hkey, Date.ltB_irrefl] at hvd
        exact absurd hvd (by simp)
      · have : recLt d w := hrd w hw
        have : d.date.ltB v.date = true := by rw [hkey]; exact this
        have hvv := Date.ltB_trans v.date d.date v.date hvd this
        rw [Date.ltB_irrefl] at hvv
        exact absurd hvv (by simp)
    · -- descending right: the duplicate must live in the right subtree
      have hdv : d.date.ltB v.date = true := h2
      rcases hw with hw | rfl | hw
      · have : recLt w d := hld w hw
        have hwd : v.date.ltB d.date = true := by rw [hkey]; exact this
        have hvv := Date.ltB_trans d.date v.date d.date hdv hwd
        rw [Date.ltB_irrefl] at hvv
        exact absurd hvv (by simp)
      · rw [hkey, Date.ltB_irrefl] at hdv
        exact absurd hdv (by simp)
      · rw [ihr hr hw]
    · rfl

/-- Inserting a value whose key matches no record in the tree produces a
tree whose in-order sequence is a permutation of the old one with the new
value added. -/
theorem Bst.insertRec_perm_of_fresh (t : Bst WeatherRecord)
    (v : WeatherRecord) (hfresh : ∀ w ∈ t.inOrderList, w.date ≠ v.date) :
    (t.insertRec v).inOrderList.Perm (v :: t.inOrderList) := by
  induction t with
  | leaf => simp [Bst.insertRec, Bst.inOrderList]
  | node l d r ihl ihr =>
    simp only [Bst.inOrderList, List.mem_append, List.mem_cons] at hfresh
    unfold Bst.insertRec
    split_ifs with h1 h2
    · have hperm := ihl (fun w hw => hfresh w (Or.inl hw))
      simp only [Bst.inOrderList]
      exact hperm.append_right (d :: r.inOrderList)
    · have hperm := ihr (fun w hw => hfresh w (Or.inr (Or.inr hw)))
      simp only [Bst.inOrderList]
      have p1 : (l.inOrderList ++ d :: (r.insertRec v).inOrderList).Perm
          (l.inOrderList ++ d :: v :: r.inOrderList) :=
        (hperm.cons d).append_left l.inOrderList
      refine p1.trans ?_
      have p2 : l.inOrderList ++ d :: v :: r.inOrderList =
          (l.inOrderList ++ [d]) ++ v :: r.inOrderList := by simp
      rw [p2]
      refine List.Perm.trans List.perm_middle ?_
      simp
    · -- neither strictly less nor strictly greater: keys are equal,
      -- contradicting freshness of v
      have hd : v.date = d.date := by
        have h1f : v.date.ltB d.date = false := by
          simpa using h1
        have h2f : Date.gtB v.date d.date = false := by
          simpa [CppOrd.gtB, WeatherRecord.gtB] using h2
        exact Date.eq_of_not_ltB_not_gtB v.date d.date h1f h2f
      exact absurd hd.symm (hfresh d (Or.inr (Or.inl rfl)))

theorem Bst.size_eq_inOrder_length (t : Bst α) :
    t.size = (t.inOrderList.length : Int) := by
  unfold Bst.size
  induction t with
  | leaf => simp [Bst.sizeRec, Bst.inOrderList]
  | node l d r ihl ihr =>
    simp [Bst.sizeRec, Bst.inOrderList, ihl, ihr]
    omega

theorem distinctDates_symm : Symmetric distinctDates :=
  fun _ _ h => fun he => h he.symm

theorem Bst.insertList_orderedRec (l : List WeatherRecord)
    (t : Bst WeatherRecord) (ht : t.OrderedRec) :
    (t.insertList l).OrderedRec := by
  induction l generalizing t with
  | nil => exact ht
  | cons v vs ih =>
    exact ih (t.insertRec v) (Bst.orderedRec_insertRec t v ht)

theorem Bst.insertList_perm (l : List WeatherRecord)
    (t : Bst WeatherRecord)
    (h : (t.inOrderList ++ l).Pairwise distinctDates) :
    (t.insertList l).inOrderList.Perm (t.inOrderList ++ l) := by
  induction l generalizing t with
  | nil => simp [Bst.insertList]
  | cons v vs ih =>
    have hfresh : ∀ w ∈ t.inOrderList, w.date ≠ v.date := by
      intro w hw
      have := (List.pairwise_append.mp h).2.2 w hw v (List.mem_cons_self v vs)
      exact this
    have hstep := Bst.insertRec_perm_of_fresh t v hfresh
    have hnext : ((t.insertRec v).inOrderList ++ vs).Pairwise distinctDates := by
      have hperm2 : ((t.insertRec v).inOrderList ++ vs).Perm
          ((v :: t.inOrderList) ++ vs) := hstep.append_right vs
      rw [hperm2.pairwise_iff (fun hxy => distinctDates_symm hxy)]
      have : ((v :: t.inOrderList) ++ vs) = v :: (t.inOrderList ++ vs) := rfl
      rw [this]
      rw [List.pairwise_cons]
      constructor
      · intro w hw
        rcases List.mem_append.mp hw with hw | hw
        · exact fun he =>
            ((List.pairwise_append.mp h).2.2 w hw v (List.mem_cons_self v vs))
              he.symm
        · exact (List.pairwise_cons.mp (List.pairwise_append.mp h).2.1).1 w hw
      · have hl := (List.pairwise_append.mp h).1
        have hr := (List.pairwise_cons.mp (List.pairwise_append.mp h).2.1).2
        have hcross : ∀ w ∈ t.inOrderList, ∀ u ∈ vs, distinctDates w u := by
          intro w hw u hu
          exact (List.pairwise_append.mp h).2.2 w hw u (List.mem_cons_of_mem v hu)
        rw [List.pairwise_append]
        exact ⟨hl, hr, hcross⟩
    have ihv := ih (t.insertRec v) hnext
    refine ihv.trans ?_
    refine (hstep.append_right vs).trans ?_
    have : ((v :: t.inOrderList) ++ vs) = v :: (t.inOrderList ++ vs) := rfl
    rw [this]
    have hmid := @List.perm_middle _ v t.inOrderList vs
    exact hmid.symm

/-- C3 helper: the in-order sequence of a store built from the empty tree
by a run of inserts. -/
theorem Bst.insertList_leaf_perm (l : List WeatherRecord)
    (h : l.Pairwise distinctDates) :
    ((Bst.leaf).insertList l).inOrderList.Perm l := by
  have := Bst.insertList_perm l Bst.leaf (by simpa [Bst.inOrderList])
  simpa [Bst.inOrderList] using this

/-- The context-threaded in-order traversal with `collectByYearMonth`
appends, in traversal order, exactly the records matching the context's
target year and month. -/
theorem Bst.inOrderCtx_collectByYearMonth (t : Bst WeatherRecord)
    (ctx : CollectionContext) :
    t.inOrderCtx collectByYearMonth ctx =
      { ctx with records := ctx.records ++
          (t.inOrderList.filter (fun r => decide (r.date.year = ctx.targetYear ∧
            r.date.month = ctx.targetMonth))) } := by
  induction t generalizing ctx with
  | leaf => simp [Bst.inOrderCtx, Bst.inOrderList]
  | node l d r ihl ihr =>
    simp only [Bst.inOrderCtx, Bst.inOrderList]
    rw [ihl, ihr]
    unfold collectByYearMonth
    split_ifs with h
    · simp only [List.filter_append, List.filter_cons]
      rw [if_pos (by simpa using h)]
      simp
    · simp only [List.filter_append, List.filter_cons]
      rw [if_neg (by simpa using h)]
      simp

/-- The context-threaded in-order traversal with `collectByMonth`
appends, in traversal order, exactly the records matching the context's
target month. -/
theorem Bst.inOrderCtx_collectByMonth (t : Bst WeatherRecord)
    (ctx : CollectionContext) :
    t.inOrderCtx collectByMonth ctx =
      { ctx with records := ctx.records ++
          (t.inOrderList.filter (fun r => decide (r.date.month = ctx.targetMonth))) } := by
  induction t generalizing ctx with
  | leaf => simp [Bst.inOrderCtx, Bst.inOrderList]
  | node l d r ihl ihr =>
    simp only [Bst.inOrderCtx, Bst.inOrderList]
    rw [ihl, ihr]
    unfold collectByMonth
    split_ifs with h
    · simp only [List.filter_append, List.filter_cons]
      rw [if_pos (by simpa using h)]
      simp
    · simp only [List.filter_append, List.filter_cons]
      rw [if_neg (by simpa using h)]
      simp

/-! ### Parser lemmas -/

theorem isStreamWs_false_of_isDigit (c : Char) (h : c.isDigit = true) :
    isStreamWs c = false := by
  have h1 : c ≠ ' ' := by intro he; subst he; exact absurd h (by decide)
  have h2 : c ≠ '\t' := by intro he; subst he; exact absurd h (by decide)
  have h3 : c ≠ '\n' := by intro he; subst he; exact absurd h (by decide)
  have h4 : c ≠ '\r' := by intro he; subst he; exact absurd h (by decide)
  have h5 : c ≠ Char.ofNat 11 := by
    intro he; subst he; exact absurd h (by decide)
  have h6 : c ≠ Char.ofNat 12 := by
    intro he; subst he; exact absurd h (by decide)
  simp [isStreamWs, h1, h2, h3, h4, h5, h6]

theorem ne_dash_of_isDigit (c : Char) (h : c.isDigit = true) : c ≠ '-' := by
  intro he; subst he; exact absurd h (by decide)

theorem ne_plus_of_isDigit (c : Char) (h : c.isDigit = true) : c ≠ '+' := by
  intro he; subst he; exact absurd h (by decide)

theorem takeDigits_append (ds rest : List Char)
    (hds : ∀ c ∈ ds, c.isDigit = true)
    (hrest : ∀ c, rest.head? = some c → c.isDigit = false) :
    takeDigits (ds ++ rest) = ds := by
  induction ds with
  | nil =>
    cases rest with
    | nil => rfl
    | cons c cs =>
      have hc := hrest c (by simp)
      simp [takeDigits, hc]
  | cons d ds ih =>
    have hd := hds d (by simp)
    simp only [List.cons_append, takeDigits, hd, if_true, List.append_eq]
    rw [ih (fun c hc => hds c (by simp [hc]))]

theorem dropDigits_append (ds rest : List Char)
    (hds : ∀ c ∈ ds, c.isDigit = true)
    (hrest : ∀ c, rest.head? = some c → c.isDigit = false) :
    dropDigits (ds ++ rest) = rest := by
  induction ds with
  | nil =>
    cases rest with
    | nil => rfl
    | cons c cs =>
      have hc := hrest c (by simp)
      simp [dropDigits, hc]
  | cons d ds ih =>
    have hd := hds d (by simp)
    simp only [List.cons_append, dropDigits, hd, if_true, List.append_eq]
    rw [ih (fun c hc => hds c (by simp [hc]))]

theorem readInt_digits (ds rest : List Char) (hne : ds ≠ [])
    (hds : ∀ c ∈ ds, c.isDigit = true)
    (hrest : ∀ c, rest.head? = some c → c.isDigit = false) :
    readInt (ds ++ rest) = some ((digitsToNat ds : Int), rest) := by
  cases ds with
  | nil => exact absurd rfl hne
  | cons d ds =>
    have hd : d.isDigit = true := hds d (by simp)
    have hws : isStreamWs d = false := isStreamWs_false_of_isDigit d hd
    have hskip : skipWs ((d :: ds) ++ rest) = d :: (ds ++ rest) := by
      simp [skipWs, hws]
    unfold readInt
    rw [hskip]
    have htake : takeDigits ((d :: ds) ++ rest) = d :: ds :=
      takeDigits_append (d :: ds) rest hds hrest
    have hdrop : dropDigits ((d :: ds) ++ rest) = rest :=
      dropDigits_append (d :: ds) rest hds hrest
    simp only [readIntCore, if_neg (ne_dash_of_isDigit d hd),
      if_neg (ne_plus_of_isDigit d hd)]
    simp only [List.cons_append] at htake hdrop
    rw [htake, hdrop]
    simp

theorem readChar_cons (c : Char) (rest : List Char)
    (h : isStreamWs c = false) : readChar (c :: rest) = some (c, rest) := by
  simp [readChar, skipWs, h, readCharCore]

theorem splitAtSpace_append (left right : List Char)
    (hleft : ∀ c ∈ left, c ≠ ' ') :
    splitAtSpace (left ++ ' ' :: right) = some (left, right) := by
  induction left with
  | nil => simp [splitAtSpace]
  | cons c cs ih =>
    have hc := hleft c (by simp)
    simp only [List.cons_append, splitAtSpace, if_neg hc, List.append_eq]
    rw [ih (fun x hx => hleft x (by simp [hx]))]

theorem parseDatePart_grammar (ds ms ys : List Char)
    (hd : ds ≠ []) (hdd : ∀ c ∈ ds, c.isDigit = true)
    (hm : ms ≠ []) (hmd : ∀ c ∈ ms, c.isDigit = true)
    (hy : ys ≠ []) (hyd : ∀ c ∈ ys, c.isDigit = true) :
    parseDatePart (ds ++ '/' :: (ms ++ '/' :: ys)) =
      some ((digitsToNat ds : Int), (digitsToNat ms : Int),
        (digitsToNat ys : Int)) := by
  have hnd : ∀ c : Char, (('/' :: (ms ++ '/' :: ys)).head? = some c) →
      c.isDigit = false := by
    intro c hc
    rw [List.head?_cons] at hc
    injection hc with hc
    subst hc
    decide
  have hnd2 : ∀ c : Char, (('/' :: ys).head? = some c) →
      c.isDigit = false := by
    intro c hc
    rw [List.head?_cons] at hc
    injection hc with hc
    subst hc
    decide
  have hnd3 : ∀ c : Char, (([] : List Char).head? = some c) →
      c.isDigit = false := by
    intro c hc
    simp at hc
  unfold parseDatePart
  rw [readInt_digits ds ('/' :: (ms ++ '/' :: ys)) hd hdd hnd]
  simp only [Option.bind_eq_bind, Option.some_bind]
  rw [readChar_cons '/' (ms ++ '/' :: ys) (by decide)]
  simp only [Option.some_bind]
  rw [readInt_digits ms ('/' :: ys) hm hmd hnd2]
  simp only [Option.some_bind]
  rw [readChar_cons '/' ys (by decide)]
  simp only [Option.some_bind]
  rw [show ys = ys ++ ([] : List Char) from (List.append_nil ys).symm]
  rw [readInt_digits ys [] hy hyd hnd3]
  simp

theorem parseTimePart_grammar (hs ms : List Char)
    (hh : hs ≠ []) (hhd : ∀ c ∈ hs, c.isDigit = true)
    (hm : ms ≠ []) (hmd : ∀ c ∈ ms, c.isDigit = true) :
    parseTimePart (hs ++ ':' :: ms) =
      some ((digitsToNat hs : Int), (digitsToNat ms : Int)) := by
  have hnd : ∀ c : Char, ((':' :: ms).head? = some c) →
      c.isDigit = false := by
    intro c hc
    rw [List.head?_cons] at hc
    injection hc with hc
    subst hc
    decide
  have hnd3 : ∀ c : Char, (([] : List Char).head? = some c) →
      c.isDigit = false := by
    intro c hc
    simp at hc
  unfold parseTimePart
  rw [readInt_digits hs (':' :: ms) hh hhd hnd]
  simp only [Option.bind_eq_bind, Option.some_bind]
  rw [readChar_cons ':' ms (by decide)]
  simp only [Option.some_bind]
  rw [show ms = ms ++ ([] : List Char) from (List.append_nil ms).symm]
  rw [readInt_digits ms [] hm hmd hnd3]
  simp

namespace Statistics

theorem spccLoop_go (ps : List (ℝ × ℝ)) (s0 : SpccSums) :
    ps.foldl spccStep s0 =
      ⟨s0.sum_x + (ps.map Prod.fst).sum, s0.sum_y + (ps.map Prod.snd).sum,
        s0.sum_xy + (ps.map (fun p => p.1 * p.2)).sum,
        s0.sum_x2 + (ps.map (fun p => p.1 * p.1)).sum,
        s0.sum_y2 + (ps.map (fun p => p.2 * p.2)).sum⟩ := by
  induction ps generalizing s0 with
  | nil => cases s0; simp
  | cons p ps ih =>
    simp only [List.foldl_cons, ih, List.map_cons, List.sum_cons]
    cases s0
    simp only [spccStep, SpccSums.mk.injEq]
    refine ⟨by ring, by ring, by ring, by ring, by ring⟩

theorem spccLoop_eq (ps : List (ℝ × ℝ)) :
    spccLoop ps =
      ⟨(ps.map Prod.fst).sum, (ps.map Prod.snd).sum,
        (ps.map (fun p => p.1 * p.2)).sum,
        (ps.map (fun p => p.1 * p.1)).sum,
        (ps.map (fun p => p.2 * p.2)).sum⟩ := by
  unfold spccLoop
  rw [spccLoop_go]
  simp

theorem zip_map_mul_fst (x y : List ℝ) (h : x.length = y.length) :
    (x.zip y).map (fun p => p.1 * p.1) = x.map (fun v => v * v) := by
  induction x generalizing y with
  | nil => simp
  | cons a xs ih =>
    cases y with
    | nil => simp at h
    | cons b ys =>
      simp only [List.zip_cons_cons, List.map_cons, List.cons.injEq]
      exact ⟨trivial, ih ys (by simpa using h)⟩

theorem zip_map_mul_snd (x y : List ℝ) (h : x.length = y.length) :
    (x.zip y).map (fun p => p.2 * p.2) = y.map (fun v => v * v) := by
  induction x generalizing y with
  | nil => cases y with
    | nil => simp
    | cons b ys => simp at h
  | cons a xs ih =>
    cases y with
    | nil => simp at h
    | cons b ys =>
      simp only [List.zip_cons_cons, List.map_cons, List.cons.injEq]
      exact ⟨trivial, ih ys (by simpa using h)⟩

end Statistics

/-! ### Claim theorems -/

/-- C1 (code-bug evaluation): `addWeatherRecord` appends to the month
bucket even when the BST insert was rejected as a duplicate.  After
adding two records with the identical timestamp 1/1/2020 00:00, the
store holds exactly one record, but the January bucket holds two
entries, so a bucket entry corresponds to no record held by the store —
contradicting the spec's atomicity requirement. -/
theorem claim_C1_bucket_out_of_sync :
    dupColl.weatherDataBST.size = 1 ∧
    dupColl.weatherDataBST.inOrderList = [dupRecA] ∧
    dupColl.dataByMonth 1 = [dupRecA, dupRecB] :=
  ⟨by decide, by decide, by decide⟩

/-- C2 (code-bug evaluation): `checkInvariant()` bounds the root between
two default-constructed sentinels, which are equal, so it returns
`false` for EVERY tree produced by at least one insert — in particular
after each insert of the sequence `[5/3/2021 10:30, 1/1/2019 00:00]` —
even though the genuine ordering invariant does hold (the in-order
sequence is strictly ascending). -/
theorem claim_C2_checkInvariant_bug :
    (∀ d : Date, ((Bst.leaf : Bst Date).insert d).checkInvariantDate = false) ∧
    ((((Bst.leaf : Bst Date).insert sampleDateA).insert
        sampleDateB).checkInvariantDate = false) ∧
    ((((Bst.leaf : Bst Date).insert sampleDateA).insert
        sampleDateB).inOrderList.Pairwise Date.lexLt) := by
  refine ⟨?_, by decide, by decide⟩
  intro d
  show Bst.checkInvariantRec (.node .leaf d .leaf)
    Date.defaultCtor Date.defaultCtor = false
  cases hg : Date.ltB Date.defaultCtor d with
  | false =>
    simp [Bst.checkInvariantRec, dateCppOrd, Date.gtB, hg]
  | true =>
    have hl : Date.ltB d Date.defaultCtor = false :=
      Date.ltB_asymm Date.defaultCtor d hg
    simp [Bst.checkInvariantRec, dateCppOrd, Date.gtB, hg, hl]

/-- C3: inserting a value whose key (timestamp) equals the key of a
record already present in a well-formed store is a no-op: the tree is
structurally unchanged, so `size()` and the in-order sequence are
unchanged and the incoming value is not stored. -/
theorem claim_C3_duplicate_insert_noop (t : Bst WeatherRecord)
    (v w : WeatherRecord) (ht : t.OrderedRec) (hw : w ∈ t.inOrderList)
    (hkey : v.date = w.date) :
    t.insert v = t ∧ (t.insert v).size = t.size ∧
      (t.insert v).inOrderList = t.inOrderList := by
  have h := Bst.insertRec_eq_of_dup t v w ht hw hkey
  unfold Bst.insert
  exact ⟨h, by rw [h], by rw [h]⟩

/-- C3 witness: a concrete duplicate-key insert (same timestamp,
different measurements) into a one-record store. -/
theorem claim_C3_witness :
    sampleTree.insert recJun2020b = sampleTree ∧
      (sampleTree.insert recJun2020b).size = sampleTree.size ∧
      (sampleTree.insert recJun2020b).inOrderList = sampleTree.inOrderList :=
  claim_C3_duplicate_insert_noop sampleTree recJun2020b recJun2020
    (Bst.orderedRec_insertRec Bst.leaf recJun2020 trivial)
    (by decide) rfl

/-- C4: inserting the same set of distinct-timestamp records in any two
permutations yields stores with equal `size()` and equal in-order
sequences, and that common sequence is a permutation of the set sorted
strictly ascending by timestamp. -/
theorem claim_C4_order_independence (S p1 p2 : List WeatherRecord)
    (h1 : p1.Perm S) (h2 : p2.Perm S) (hdist : S.Pairwise distinctDates) :
    ((Bst.leaf).insertList p1).size = ((Bst.leaf).insertList p2).size ∧
    ((Bst.leaf).insertList p1).inOrderList =
      ((Bst.leaf).insertList p2).inOrderList ∧
    ((Bst.leaf).insertList p1).inOrderList.Perm S ∧
    ((Bst.leaf).insertList p1).inOrderList.Pairwise
      (fun a b => a.date.lexLt b.date) := by
  have hd1 : p1.Pairwise distinctDates :=
    (h1.pairwise_iff (fun hxy => distinctDates_symm hxy)).mpr hdist
  have hd2 : p2.Pairwise distinctDates :=
    (h2.pairwise_iff (fun hxy => distinctDates_symm hxy)).mpr hdist
  have hp1 : ((Bst.leaf).insertList p1).inOrderList.Perm S :=
    (Bst.insertList_leaf_perm p1 hd1).trans h1
  have hp2 : ((Bst.leaf).insertList p2).inOrderList.Perm S :=
    (Bst.insertList_leaf_perm p2 hd2).trans h2
  have hs1 : ((Bst.leaf).insertList p1).inOrderList.Pairwise recLt :=
    Bst.inOrder_pairwise_of_orderedRec _
      (Bst.insertList_orderedRec p1 Bst.leaf trivial)
  have hs2 : ((Bst.leaf).insertList p2).inOrderList.Pairwise recLt :=
    Bst.inOrder_pairwise_of_orderedRec _
      (Bst.insertList_orderedRec p2 Bst.leaf trivial)
  haveI : IsAntisymm WeatherRecord recLt :=
    ⟨fun _ _ hab hba => absurd hba (recLt_asymm hab)⟩
  have heq : ((Bst.leaf).insertList p1).inOrderList =
      ((Bst.leaf).insertList p2).inOrderList :=
    List.eq_of_perm_of_sorted (hp1.trans hp2.symm) hs1 hs2
  refine ⟨?_, heq, hp1, ?_⟩
  · rw [Bst.size_eq_inOrder_length, Bst.size_eq_inOrder_length, heq]
  · exact hs1.imp (fun h => (Date.ltB_iff_lexLt _ _).mp h)

/-- C4 witness: the set {10/6/2020, 2/1/2019, 15/6/2019} inserted in two
different orders. -/
theorem claim_C4_witness :
    ((Bst.leaf).insertList [recJan2019, recJun2020, recJun2019]).size =
      ((Bst.leaf).insertList [recJun2019, recJan2019, recJun2020]).size ∧
    ((Bst.leaf).insertList [recJan2019, recJun2020, recJun2019]).inOrderList =
      ((Bst.leaf).insertList [recJun2019, recJan2019, recJun2020]).inOrderList ∧
    ((Bst.leaf).insertList
        [recJan2019, recJun2020, recJun2019]).inOrderList.Perm
      [recJun2020, recJan2019, recJun2019] ∧
    ((Bst.leaf).insertList
        [recJan2019, recJun2020, recJun2019]).inOrderList.Pairwise
      (fun a b => a.date.lexLt b.date) :=
  claim_C4_order_independence [recJun2020, recJan2019, recJun2019]
    [recJan2019, recJun2020, recJun2019] [recJun2019, recJan2019, recJun2020]
    (by decide) (by decide) (by decide)

theorem Date.eq_iff_fields (a b : Date) :
    a = b ↔ (a.year = b.year ∧ a.month = b.month ∧ a.day = b.day ∧
      a.hour = b.hour ∧ a.minute = b.minute) := by
  constructor
  · intro h; subst h; exact ⟨rfl, rfl, rfl, rfl, rfl⟩
  · intro h; cases a; cases b; simp_all

/-- C9: `WeatherRecord::operator<` holds precisely when the
(year, month, day, hour, minute) tuple is lexicographically smaller,
`operator==` holds precisely when all five timestamp components are
equal, and the three measurement values never affect either. -/
theorem claim_C9_record_ordering (r1 r2 : WeatherRecord) :
    (WeatherRecord.ltB r1 r2 = true ↔ r1.date.lexLt r2.date) ∧
    (WeatherRecord.eqB r1 r2 = true ↔
      (r1.date.year = r2.date.year ∧ r1.date.month = r2.date.month ∧
        r1.date.day = r2.date.day ∧ r1.date.hour = r2.date.hour ∧
        r1.date.minute = r2.date.minute)) ∧
    (∀ (d1 d2 : Date) (a1 a2 a3 b1 b2 b3 c1 c2 c3 e1 e2 e3 : ℚ),
      WeatherRecord.ltB ⟨d1, a1, a2, a3⟩ ⟨d2, b1, b2, b3⟩ =
        WeatherRecord.ltB ⟨d1, c1, c2, c3⟩ ⟨d2, e1, e2, e3⟩ ∧
      WeatherRecord.eqB ⟨d1, a1, a2, a3⟩ ⟨d2, b1, b2, b3⟩ =
        WeatherRecord.eqB ⟨d1, c1, c2, c3⟩ ⟨d2, e1, e2, e3⟩) := by
  refine ⟨Date.ltB_iff_lexLt r1.date r2.date, ?_, ?_⟩
  · show r1.date.eqB r2.date = true ↔ _
    rw [Date.eqB_iff, Date.eq_iff_fields]
  · intro d1 d2 a1 a2 a3 b1 b2 b3 c1 c2 c3 e1 e2 e3
    exact ⟨rfl, rfl⟩

/-- C5: with valid parameters (year ≥ 1, month in 1..12),
`getDataForSpecificMonthYear` succeeds and returns (as detached copies)
exactly the stored records whose year and month both match: every
matching record appears and no non-matching record does. -/
theorem claim_C5_round_trip_query (c : WeatherDataCollection) (y m : Int)
    (hy : 1 ≤ y) (hm1 : 1 ≤ m) (hm2 : m ≤ 12) :
    ∃ res, c.getDataForSpecificMonthYear y m = some res ∧
      ∀ r, r ∈ res ↔ (r ∈ c.weatherDataBST.inOrderList ∧
        r.date.year = y ∧ r.date.month = m) := by
  unfold WeatherDataCollection.getDataForSpecificMonthYear
  rw [if_neg (by omega)]
  refine ⟨_, rfl, ?_⟩
  intro r
  rw [Bst.inOrderCtx_collectByYearMonth]
  simp [List.mem_filter]

/-- C5 witness: a three-record collection queried at (2020, 6). -/
theorem claim_C5_witness :
    (1:Int) ≤ 2020 ∧ (1:Int) ≤ 6 ∧ (6:Int) ≤ 12 ∧
    (∃ res, sampleColl.getDataForSpecificMonthYear 2020 6 = some res ∧
      ∀ r, r ∈ res ↔ (r ∈ sampleColl.weatherDataBST.inOrderList ∧
        r.date.year = 2020 ∧ r.date.month = 6)) :=
  ⟨by decide, by decide, by decide,
    claim_C5_round_trip_query sampleColl 2020 6 (by decide) (by decide)
      (by decide)⟩

/-- C7 counterexample: on a concrete collection, the month-only query
with month 13 (and with month 0) returns the null/failure result `none`
(modelling the C++ `nullptr`), not an empty result `some []` — refuting
the claim that an out-of-range month yields an empty result. -/
theorem claim_C7_counterexample :
    sampleColl.getDataForMonth 13 ≠ some [] ∧
    sampleColl.getDataForMonth 13 = none ∧
    sampleColl.getDataForMonth 0 = none :=
  ⟨by decide, by decide, by decide⟩

/-- C7 as amended: for every collection, the month-only query with an
out-of-range month returns the null/failure result `none` (the function
is total, so it cannot crash or throw). -/
theorem claim_C7_amended_invalid_month (c : WeatherDataCollection)
    (m : Int) (h : m < 1 ∨ 12 < m) : c.getDataForMonth m = none := by
  unfold WeatherDataCollection.getDataForMonth
  rw [if_pos (by omega)]

/-- C7 witness: the amended statement at month 13 on a concrete
collection. -/
theorem claim_C7_amended_witness :
    sampleColl.getDataForMonth 13 = none :=
  claim_C7_amended_invalid_month sampleColl 13 (by decide)

/-- C10: `getDataForYearMonth` validates nothing — for every year/month
pair, including invalid ones, it returns a (non-null) list holding
copies of exactly the records matching both fields, hence the empty list
for invalid parameters whenever the stored records carry in-range
months and years; `getDataForSpecificMonthYear` instead returns the
null/failure result `none` on those same invalid parameters. -/
theorem claim_C10_no_validation_contrast (c : WeatherDataCollection)
    (y m : Int) :
    (∀ r, r ∈ c.getDataForYearMonth y m ↔
      (r ∈ c.weatherDataBST.inOrderList ∧ r.date.year = y ∧
        r.date.month = m)) ∧
    ((m < 1 ∨ 12 < m ∨ y < 1) →
      c.getDataForSpecificMonthYear y m = none ∧
      ((∀ r ∈ c.weatherDataBST.inOrderList,
          1 ≤ r.date.month ∧ r.date.month ≤ 12 ∧ 1 ≤ r.date.year) →
        c.getDataForYearMonth y m = [])) := by
  constructor
  · intro r
    unfold WeatherDataCollection.getDataForYearMonth
    rw [Bst.inOrderCtx_collectByYearMonth]
    simp [List.mem_filter]
  · intro hinv
    constructor
    · unfold WeatherDataCollection.getDataForSpecificMonthYear
      rw [if_pos (by omega)]
    · intro hstored
      unfold WeatherDataCollection.getDataForYearMonth
      rw [Bst.inOrderCtx_collectByYearMonth]
      simp only [List.nil_append]
      rw [List.filter_eq_nil_iff]
      intro r hr
      have := hstored r hr
      simp only [decide_eq_true_eq, not_and]
      intro hyr hmo
      omega

/-- C10 witness: the invalid query (2020, 13) on a concrete collection
with in-range data. -/
theorem claim_C10_witness :
    sampleColl.getDataForSpecificMonthYear 2020 13 = none ∧
    sampleColl.getDataForYearMonth 2020 13 = [] := by
  have h := (claim_C10_no_validation_contrast sampleColl 2020 13).2
    (by decide)
  exact ⟨h.1, h.2 (by decide)⟩

/-- C6: `parseDate` is total (it returns a `Date` on every input and has
no failure exit).  Parsing `"not-a-date"` yields the sentinel 1/1/1900
00:00.  Whenever the input has no space, or its date portion fails to
parse (stream extraction failure or wrong separators), the sentinel is
returned; when only the time portion fails, the parsed date is returned
with hour and minute zeroed; and an input exactly of the grammar shape
`D/M/Y H:MM` (digit runs) parses to its five numeric components. -/
theorem claim_C6_parseDate_fallbacks :
    (parseDate "not-a-date" = ⟨1, 1, 1900, 0, 0⟩) ∧
    (∀ s : String, splitAtSpace s.data = none →
      parseDate s = ⟨1, 1, 1900, 0, 0⟩) ∧
    (∀ (s : String) (dp tp : List Char),
      splitAtSpace s.data = some (dp, tp) → parseDatePart dp = none →
      parseDate s = ⟨1, 1, 1900, 0, 0⟩) ∧
    (∀ (s : String) (dp tp : List Char) (d m y : Int),
      splitAtSpace s.data = some (dp, tp) →
      parseDatePart dp = some (d, m, y) → parseTimePart tp = none →
      parseDate s = ⟨d, m, y, 0, 0⟩) ∧
    (∀ ds ms ys hs mins : List Char,
      (ds ≠ [] ∧ ∀ c ∈ ds, c.isDigit = true) →
      (ms ≠ [] ∧ ∀ c ∈ ms, c.isDigit = true) →
      (ys ≠ [] ∧ ∀ c ∈ ys, c.isDigit = true) →
      (hs ≠ [] ∧ ∀ c ∈ hs, c.isDigit = true) →
      (mins ≠ [] ∧ ∀ c ∈ mins, c.isDigit = true) →
      parseDate (String.mk (ds ++ '/' :: (ms ++ '/' :: ys) ++
          ' ' :: (hs ++ ':' :: mins))) =
        ⟨(digitsToNat ds : Int), (digitsToNat ms : Int),
          (digitsToNat ys : Int), (digitsToNat hs : Int),
          (digitsToNat mins : Int)⟩) := by
  refine ⟨by decide, ?_, ?_, ?_, ?_⟩
  · intro s hs
    unfold parseDate
    rw [hs]
  · intro s dp tp hsplit hdate
    unfold parseDate
    simp only [hsplit, hdate]
  · intro s dp tp d m y hsplit hdate htime
    unfold parseDate
    simp only [hsplit, hdate, htime]
  · intro ds ms ys hs mins hds hms hys hhs hmins
    have hnospace : ∀ c ∈ ds ++ '/' :: (ms ++ '/' :: ys), c ≠ ' ' := by
      intro c hc
      simp only [List.mem_append, List.mem_cons] at hc
      rcases hc with hc | rfl | hc | rfl | hc
      · intro he; subst he; exact absurd (hds.2 _ hc) (by decide)
      · decide
      · intro he; subst he; exact absurd (hms.2 _ hc) (by decide)
      · decide
      · intro he; subst he; exact absurd (hys.2 _ hc) (by decide)
    unfold parseDate
    have h1 : (String.mk (ds ++ '/' :: (ms ++ '/' :: ys) ++
        ' ' :: (hs ++ ':' :: mins))).data =
        (ds ++ '/' :: (ms ++ '/' :: ys)) ++
          ' ' :: (hs ++ ':' :: mins) := rfl
    rw [h1, splitAtSpace_append _ _ hnospace]
    simp only
      [parseDatePart_grammar ds ms ys hds.1 hds.2 hms.1 hms.2 hys.1 hys.2,
      parseTimePart_grammar hs mins hhs.1 hhs.2 hmins.1 hmins.2]

/-- C6 witness: the grammar-shaped input `3/12/2015 7:45` parses to its
five components. -/
theorem claim_C6_witness :
    parseDate (String.mk (['3'] ++ '/' :: (['1', '2'] ++ '/' ::
        ['2', '0', '1', '5']) ++ ' ' :: (['7'] ++ ':' :: ['4', '5']))) =
      ⟨3, 12, 2015, 7, 45⟩ := by
  have h := claim_C6_parseDate_fallbacks.2.2.2.2 ['3'] ['1', '2']
    ['2', '0', '1', '5'] ['7'] ['4', '5']
    (by refine ⟨by decide, ?_⟩; decide)
    (by refine ⟨by decide, ?_⟩; decide)
    (by refine ⟨by decide, ?_⟩; decide)
    (by refine ⟨by decide, ?_⟩; decide)
    (by refine ⟨by decide, ?_⟩; decide)
  rw [h]
  decide

/-- C8: `calculateSPCC` returns 0.0 when the lengths differ, when there
are fewer than two samples, or when the magnitude of the denominator
`sqrt((n·Σx² − (Σx)²)(n·Σy² − (Σy)²))` is below 1e-10; otherwise it
returns the classic sum-based Pearson coefficient
numerator/denominator. -/
theorem claim_C8_pearson_guards (x y : List ℝ) :
    (x.length ≠ y.length → Statistics.calculateSPCC x y = 0) ∧
    (x.length < 2 → Statistics.calculateSPCC x y = 0) ∧
    (x.length = y.length → 2 ≤ x.length →
      |Statistics.pearsonDen x y| < 1e-10 →
      Statistics.calculateSPCC x y = 0) ∧
    (x.length = y.length → 2 ≤ x.length →
      ¬ (|Statistics.pearsonDen x y| < 1e-10) →
      Statistics.calculateSPCC x y =
        Statistics.pearsonNum x y / Statistics.pearsonDen x y) := by
  refine ⟨?_, ?_, ?_, ?_⟩
  · intro h
    unfold Statistics.calculateSPCC
    rw [if_pos (Or.inl h)]
  · intro h
    unfold Statistics.calculateSPCC
    rw [if_pos (Or.inr h)]
  · intro hlen h2 hden
    unfold Statistics.pearsonDen at hden
    unfold Statistics.calculateSPCC
    rw [if_neg (by push_neg; exact ⟨hlen, by omega⟩)]
    simp only [Statistics.spccLoop_eq,
      List.map_fst_zip x y (le_of_eq hlen),
      List.map_snd_zip x y (le_of_eq hlen.symm),
      Statistics.zip_map_mul_fst x y hlen,
      Statistics.zip_map_mul_snd x y hlen]
    rw [if_pos hden]
  · intro hlen h2 hden
    unfold Statistics.pearsonDen at hden
    unfold Statistics.calculateSPCC
    rw [if_neg (by push_neg; exact ⟨hlen, by omega⟩)]
    simp only [Statistics.spccLoop_eq,
      List.map_fst_zip x y (le_of_eq hlen),
      List.map_snd_zip x y (le_of_eq hlen.symm),
      Statistics.zip_map_mul_fst x y hlen,
      Statistics.zip_map_mul_snd x y hlen]
    rw [if_neg hden]
    unfold Statistics.pearsonNum Statistics.pearsonDen
    rfl

/-- C8 witness: the pair `x = [0,1]`, `y = [0,1]` passes all guards
(denominator 1), so the result is the classic formula. -/
theorem claim_C8_witness :
    Statistics.calculateSPCC [0, 1] [0, 1] =
      Statistics.pearsonNum [0, 1] [0, 1] /
        Statistics.pearsonDen [0, 1] [0, 1] := by
  have hden1 : Statistics.pearsonDen [0, 1] [0, 1] = 1 := by
    unfold Statistics.pearsonDen
    norm_num
  exact (claim_C8_pearson_guards [0, 1] [0, 1]).2.2.2 rfl (by norm_num)
    (by rw [hden1]; norm_num)

end ICT283
